import Mathlib

set_option linter.unusedVariables false

/-!
Verification of the natural-language specification of the
`TwitterBotProject` repository against a shallow embedding of `src/bot.py`.

The embedding models the poll-and-act loop of `run_once` (bot.py lines
142-224) together with its helpers `load_state`, `get_created_at`,
`is_retweet_or_reply` and `matches_keywords`.  Remote calls are modelled
as explicit parameters:

* `fetch`   — the outcome of `client.get_home_timeline(...)`: `.error` when
  the call raises (caught at bot.py lines 161-163), `.ok` with the list of
  tweets otherwise (the code's `getattr(resp, "data", None) or []` collapse
  of a missing payload to `[]` is folded into the payload).
* `rtOk`    — per-tweet-id success of `client.retweet(tweet_id=tid)`:
  `false` means the call raises (caught at bot.py lines 217-220).
* `getMe`   — the outcome of `client.get_me()`, `.error` when it raises
  (uncaught, so the interpreter would exit with a failure status).

Tweet ids are modelled as strings (ids are stringified with `str(...)` at
bot.py line 172); Python truthiness of an optional string is "present and
non-empty".  Timestamps are UTC seconds as integers, so
`timedelta(hours=h)` is `3600 * h`.
-/

namespace TwitterBot

/-- JSON values, for the contents of the `state.json` store file. -/
inductive Json where
  | null
  | bool (b : Bool)
  | num (n : Int)
  | str (s : String)
  | arr (elts : List Json)
  | obj (fields : List (String × Json))

/-- Outcome of attempting to open and parse the store file at `load_state`
(bot.py lines 46-58): the file may be absent (`FileNotFoundError`),
unreadable (an I/O error inside the `except Exception` arm), corrupt
(`json.JSONDecodeError`, same arm), or successfully parsed. -/
inductive FileRead where
  | missing
  | unreadable
  | corrupt
  | parsed (j : Json)

/-- The empty-ledger dictionary `{"processed_ids": []}` produced by
`load_state` on every failure path. -/
def emptyState : Json := .obj [("processed_ids", .arr [])]

/-- `load_state` (bot.py lines 46-58): returns the parsed JSON, and the
empty ledger on `FileNotFoundError` or on any other exception (the
warning log is not modelled). -/
def load_state : FileRead → Json
  | .missing => emptyState
  | .unreadable => emptyState
  | .corrupt => emptyState
  | .parsed j => j

/-- Python's `state.get(key, default)` as used at bot.py line 145:
dictionary lookup with a default; calling `.get` on a non-dictionary
raises `AttributeError`, modelled as `.error`. -/
def stateGet (st : Json) (key : String) (dflt : Json) : Except String Json :=
  match st with
  | .obj kvs => .ok ((List.lookup key kvs).getD dflt)
  | _ => .error "AttributeError"

/-- One fetched tweet, holding the results of the duck-typed field
extractions performed by bot.py:

* `attrId`    — `getattr(t, "id", None)`, stringifiable id value
  (`none` when the attribute is absent or `None`);
* `dataId`    — `(getattr(t, "data", {}) or {}).get("id")`;
* `authorId`  — the tweet's `author_id` (bot.py only ever logs it);
* `createdAt` — the result of `get_created_at(t)` (bot.py lines 123-140):
  the UTC timestamp, or `none` when the attribute is absent and the raw
  string is missing or unparsable;
* `refs`      — the `type` strings of the `referenced_tweets` entries
  (`[]` when the attribute/key is absent or `None`);
* `text`      — `getattr(t, "text", None)`. -/
structure Tweet where
  attrId : Option String
  dataId : Option String
  authorId : Option String
  createdAt : Option Int
  refs : List String
  text : Option String
deriving DecidableEq, Repr

/-- Python truthiness of an optional string: `None` and `""` are falsy. -/
def pyTruthy : Option String → Bool
  | none => false
  | some s => !(s == "")

/-- Python's `a or b` on optional strings: yields `b` whenever `a` is
falsy (even when `b` is itself falsy). -/
def pyOr (a b : Option String) : Option String :=
  if pyTruthy a then a else b

/-- Python's `str(x)` on an optional string: `str(None)` is the literal
string `"None"`. -/
def pyStr : Option String → String
  | none => "None"
  | some s => s

/-- The identifier computed at bot.py line 172:
`tid = str(getattr(t, "id", None) or (getattr(t, "data", {}) or {}).get("id"))`. -/
def tidOf (t : Tweet) : String := pyStr (pyOr t.attrId t.dataId)

/-- `get_created_at` (bot.py lines 123-140); its extraction result is the
`createdAt` field of the modelled tweet. -/
def get_created_at (t : Tweet) : Option Int := t.createdAt

/-- `is_retweet_or_reply` (bot.py lines 87-106): `False` when there are no
referenced tweets, otherwise `True` exactly when some entry's `type` is
`retweeted`, `replied_to` or `quoted`. -/
def is_retweet_or_reply (t : Tweet) : Bool :=
  t.refs.any fun rtype => rtype == "retweeted" || rtype == "replied_to" || rtype == "quoted"

/-- `matches_keywords` (bot.py lines 110-121): empty text never matches;
otherwise defer to the compiled keyword pattern, modelled as the
configuration's `kwMatch` predicate (`bool(keyword_re.search(text))`). -/
def matches_keywords (kw : String → Bool) (text : String) : Bool :=
  if text == "" then false else kw text

/-- The text extraction at bot.py line 194:
`getattr(t, "text", None) or (getattr(t, "data", {}) or {}).get("text", "")`;
an absent or empty attribute collapses to `""`. -/
def textOf (t : Tweet) : String := t.text.getD ""

/-- The run configuration read from the environment (bot.py lines 34-40):
`MAX_RETWEETS_PER_RUN`, `DRY_RUN`, `LOOKBACK_HOURS`, and the compiled
`KEYWORDS` regular expression (as a search predicate). -/
structure Config where
  maxRetweetsPerRun : Nat
  dryRun : Bool
  lookbackHours : Int
  kwMatch : String → Bool

/-- The verdict of the filter gates of the loop body (bot.py lines
172-201), in source order.  `skipNoTid` and `skipDuplicate` are the two
plain `continue`s that do not record the id; the next four record the id
as processed before continuing; `admitItem` reaches the cap check at
line 203. -/
inductive Verdict where
  | skipNoTid
  | skipDuplicate
  | skipNoDate
  | skipTooOld
  | skipReference
  | skipNoMatch
  | admitItem
deriving DecidableEq, Repr

/-- The gate sequence of the loop body (bot.py lines 172-201), evaluated
against the current processed set and the cutoff
`now - timedelta(hours=LOOKBACK_HOURS)`:

1. `if not tid: continue` (line 173);
2. `if tid in processed: continue` (line 175);
3. `if not created_at:` record and continue (line 179);
4. `if created_at < cutoff:` record and continue (line 184);
5. `if is_retweet_or_reply(t):` record and continue (line 189);
6. `if not matches_keywords(text):` record and continue (line 196);
otherwise the item is admitted to the action section. -/
def pipeline (kw : String → Bool) (processed : Finset String) (cutoff : Int)
    (t : Tweet) : Verdict :=
  let tid := tidOf t
  if tid == "" then .skipNoTid
  else if tid ∈ processed then .skipDuplicate
  else match get_created_at t with
    | none => .skipNoDate
    | some created_at =>
      if created_at < cutoff then .skipTooOld
      else if is_retweet_or_reply t then .skipReference
      else if !(matches_keywords kw (textOf t)) then .skipNoMatch
      else .admitItem

/-- The mutable state of the `for t in tweets:` loop (bot.py lines
169-220), plus two ghost observables: `liveCalls` records, in order, the
tweet ids for which `client.retweet` was actually invoked (successfully
or not), and `trace` records, in order, the tweets whose loop iteration
was entered (i.e. the candidates exposed to the filter gates). -/
structure LoopState where
  processed : Finset String
  retweetedCount : Nat
  liveCalls : List String
  trace : List Tweet
deriving DecidableEq

/-- The loop `for t in tweets:` of `run_once` (bot.py lines 171-220).
Gate verdicts are produced by `pipeline`; an admitted item first meets
the cap check (line 203, `break`), then either the dry-run arm (lines
207-210: record, count) or the live arm (lines 211-220: invoke
`client.retweet`; on success record and count, on an exception record
and continue without counting). -/
def runLoop (cfg : Config) (cutoff : Int) (rtOk : String → Bool) :
    List Tweet → LoopState → LoopState
  | [], s => s
  | t :: rest, s =>
    let s1 : LoopState := { s with trace := s.trace ++ [t] }
    let tid := tidOf t
    match pipeline cfg.kwMatch s.processed cutoff t with
    | .skipNoTid => runLoop cfg cutoff rtOk rest s1
    | .skipDuplicate => runLoop cfg cutoff rtOk rest s1
    | .skipNoDate =>
      runLoop cfg cutoff rtOk rest { s1 with processed := insert tid s1.processed }
    | .skipTooOld =>
      runLoop cfg cutoff rtOk rest { s1 with processed := insert tid s1.processed }
    | .skipReference =>
      runLoop cfg cutoff rtOk rest { s1 with processed := insert tid s1.processed }
    | .skipNoMatch =>
      runLoop cfg cutoff rtOk rest { s1 with processed := insert tid s1.processed }
    | .admitItem =>
      if cfg.maxRetweetsPerRun ≤ s1.retweetedCount then s1
      else if cfg.dryRun then
        runLoop cfg cutoff rtOk rest
          { s1 with processed := insert tid s1.processed,
                    retweetedCount := s1.retweetedCount + 1 }
      else if rtOk tid then
        runLoop cfg cutoff rtOk rest
          { s1 with processed := insert tid s1.processed,
                    retweetedCount := s1.retweetedCount + 1,
                    liveCalls := s1.liveCalls ++ [tid] }
      else
        runLoop cfg cutoff rtOk rest
          { s1 with processed := insert tid s1.processed,
                    liveCalls := s1.liveCalls ++ [tid] }

/-- Observable outcome of one run: the exposure trace and live-call list
(ghost observables, see `LoopState`), the final `retweeted_count`, the
final in-memory processed set, and `saved` — the processed-ids snapshot
written back by `save_state` at bot.py lines 222-223, or `none` when the
early `return` at line 163 skipped the write. -/
structure RunResult where
  trace : List Tweet
  liveCalls : List String
  retweetedCount : Nat
  processed : Finset String
  saved : Option (Finset String)
deriving DecidableEq

/-- The body of `run_once` from line 145 on, parametrised by the
processed set extracted from the loaded state
(`processed = set(state.get("processed_ids", []))`, line 145; the
`load_state`/`stateGet` composition is exercised separately), the
authenticated user (`meId`, line 149-150), the current time, the fetch
outcome and the per-id retweet success oracle.  A fetch failure is
caught (lines 161-163) and returns before the loop and before
`save_state`; otherwise the provider list is reversed (line 168) and
the loop runs, after which the processed set is saved (lines 222-223). -/
def run_once_body (cfg : Config) (meId : Option String)
    (initProcessed : Finset String) (now : Int)
    (fetch : Except String (List Tweet)) (rtOk : String → Bool) : RunResult :=
  let my_user_id := pyStr meId
  let cutoff := now - 3600 * cfg.lookbackHours
  match fetch with
  | .error _ =>
    { trace := [], liveCalls := [], retweetedCount := 0,
      processed := initProcessed, saved := none }
  | .ok tweetsRaw =>
    let tweets := tweetsRaw.reverse
    let final := runLoop cfg cutoff rtOk tweets
      { processed := initProcessed, retweetedCount := 0, liveCalls := [], trace := [] }
    { trace := final.trace, liveCalls := final.liveCalls,
      retweetedCount := final.retweetedCount,
      processed := final.processed, saved := some final.processed }

/-- `run_once` (bot.py lines 142-224) including its two uncaught failure
points: `make_client` raises `RuntimeError` when credentials are missing
(lines 75-77) and `client.get_me()` may raise (line 149); both propagate
out of `run_once`, making the interpreter exit with a failure status.
Every other modelled path returns normally, and since the
`if __name__ == "__main__"` block (lines 227-228) ignores the return
value, a normal return means the process exits with a success status. -/
def run_once (cfg : Config) (credsOk : Bool) (getMe : Except String (Option String))
    (initProcessed : Finset String) (now : Int)
    (fetch : Except String (List Tweet)) (rtOk : String → Bool) :
    Except String RunResult :=
  if credsOk then
    match getMe with
    | .error e => .error e
    | .ok meId => .ok (run_once_body cfg meId initProcessed now fetch rtOk)
  else .error "RuntimeError"


/-!
Concrete fixtures used by the counterexamples and witnesses below.
`kw0` stands for a compiled keyword pattern that matches exactly the
text `cover`.
-/

/-- Keyword matcher fixture: the compiled pattern search holds exactly on
the text `cover`. -/
def kw0 : String → Bool := fun s => s == "cover"

/-- Recent original keyword-matching tweet with id `A` (timestamp 1000). -/
def tA : Tweet := ⟨some "A", none, some "7", some 1000, [], some "cover"⟩

/-- Recent original keyword-matching tweet with id `B` (timestamp 1000). -/
def tB : Tweet := ⟨some "B", none, some "8", some 1000, [], some "cover"⟩

/-- Keyword-matching tweet with id `C` and timestamp 0 (older than every
cutoff used below). -/
def tC : Tweet := ⟨some "C", none, some "9", some 0, [], some "cover"⟩

/-- Recent original keyword-matching tweet with id `901` authored by user
`42` — the authenticated caller in the C1 scenario. -/
def tSelf : Tweet := ⟨some "901", none, some "42", some 1000, [], some "cover"⟩

/-- Tweet with id `D` whose creation time could not be determined
(`get_created_at` returned `None`). -/
def tNoDate : Tweet := ⟨some "D", none, some "7", none, [], some "cover"⟩

/-- Tweet without an `id` attribute whose raw data dictionary maps `id`
to the empty string: `str(None or "")` is `""`. -/
def tEmptyId : Tweet := ⟨none, some "", some "7", some 1000, [], some "cover"⟩

/-- Tweet carrying no id at all: attribute absent and no `id` key in the
data dictionary, so `str(None)` yields `"None"`. -/
def tNoId : Tweet := ⟨none, none, some "7", none, [], some "cover"⟩

/-!
Helper lemmas about the loop.  Each is proved by induction on the
remaining candidate list, case-splitting on the gate verdict exactly as
the loop body does.
-/

/-- An admitted item is not yet in the processed set (the
already-processed gate precedes admission). -/
theorem pipeline_admit_not_mem {kw : String → Bool} {p : Finset String} {cutoff : Int}
    {t : Tweet} (h : pipeline kw p cutoff t = .admitItem) : tidOf t ∉ p := by
  unfold pipeline at h
  by_contra hmem
  simp only [hmem] at h
  split at h <;> simp_all

/-- The run-scoped counter never exceeds the cap: it only increments
under the `retweeted_count >= MAX_RETWEETS_PER_RUN` guard. -/
theorem runLoop_count_le (cfg : Config) (cutoff : Int) (rtOk : String → Bool)
    (ts : List Tweet) (s : LoopState) (h : s.retweetedCount ≤ cfg.maxRetweetsPerRun) :
    (runLoop cfg cutoff rtOk ts s).retweetedCount ≤ cfg.maxRetweetsPerRun := by
  induction ts generalizing s with
  | nil => simpa [runLoop] using h
  | cons t rest ih =>
    obtain ⟨p, c, lc, tr⟩ := s
    have h' : c ≤ cfg.maxRetweetsPerRun := h
    simp only [runLoop]
    split
    · exact ih ⟨p, c, lc, tr ++ [t]⟩ h'
    · exact ih ⟨p, c, lc, tr ++ [t]⟩ h'
    · exact ih ⟨insert (tidOf t) p, c, lc, tr ++ [t]⟩ h'
    · exact ih ⟨insert (tidOf t) p, c, lc, tr ++ [t]⟩ h'
    · exact ih ⟨insert (tidOf t) p, c, lc, tr ++ [t]⟩ h'
    · exact ih ⟨insert (tidOf t) p, c, lc, tr ++ [t]⟩ h'
    · split
      · exact h'
      · next hlt =>
        have hlt' : ¬ (cfg.maxRetweetsPerRun ≤ c) := hlt
        split
        · exact ih ⟨insert (tidOf t) p, c + 1, lc, tr ++ [t]⟩ (by show c + 1 ≤ _; omega)
        · split
          · exact ih ⟨insert (tidOf t) p, c + 1, lc ++ [tidOf t], tr ++ [t]⟩
              (by show c + 1 ≤ _; omega)
          · exact ih ⟨insert (tidOf t) p, c, lc ++ [tidOf t], tr ++ [t]⟩ h'

/-- Once the counter is at or above the cap, no further live call is
made: the first admitted item hits the `break` before the action. -/
theorem runLoop_capped_live (cfg : Config) (cutoff : Int) (rtOk : String → Bool)
    (ts : List Tweet) (s : LoopState) (h : cfg.maxRetweetsPerRun ≤ s.retweetedCount) :
    (runLoop cfg cutoff rtOk ts s).liveCalls = s.liveCalls := by
  induction ts generalizing s with
  | nil => simp [runLoop]
  | cons t rest ih =>
    obtain ⟨p, c, lc, tr⟩ := s
    have h' : cfg.maxRetweetsPerRun ≤ c := h
    simp only [runLoop]
    split
    · exact ih ⟨p, c, lc, tr ++ [t]⟩ h'
    · exact ih ⟨p, c, lc, tr ++ [t]⟩ h'
    · exact ih ⟨insert (tidOf t) p, c, lc, tr ++ [t]⟩ h'
    · exact ih ⟨insert (tidOf t) p, c, lc, tr ++ [t]⟩ h'
    · exact ih ⟨insert (tidOf t) p, c, lc, tr ++ [t]⟩ h'
    · exact ih ⟨insert (tidOf t) p, c, lc, tr ++ [t]⟩ h'
    · split
      · rfl
      · next hlt =>
        have hlt' : ¬ (cfg.maxRetweetsPerRun ≤ c) := hlt
        omega

/-- Every id that received a live call is in the processed set at the end
of the loop: both the success arm and the exception arm of the live call
add the id. -/
theorem runLoop_live_mem_processed (cfg : Config) (cutoff : Int) (rtOk : String → Bool)
    (ts : List Tweet) (s : LoopState)
    (hinv : ∀ x ∈ s.liveCalls, x ∈ s.processed) :
    ∀ x ∈ (runLoop cfg cutoff rtOk ts s).liveCalls,
      x ∈ (runLoop cfg cutoff rtOk ts s).processed := by
  induction ts generalizing s with
  | nil => simpa [runLoop] using hinv
  | cons t rest ih =>
    obtain ⟨p, c, lc, tr⟩ := s
    have hinv' : ∀ x ∈ lc, x ∈ p := hinv
    simp only [runLoop]
    split
    · exact ih ⟨p, c, lc, tr ++ [t]⟩ hinv'
    · exact ih ⟨p, c, lc, tr ++ [t]⟩ hinv'
    · exact ih ⟨insert (tidOf t) p, c, lc, tr ++ [t]⟩
        fun x hx => Finset.mem_insert_of_mem (hinv' x hx)
    · exact ih ⟨insert (tidOf t) p, c, lc, tr ++ [t]⟩
        fun x hx => Finset.mem_insert_of_mem (hinv' x hx)
    · exact ih ⟨insert (tidOf t) p, c, lc, tr ++ [t]⟩
        fun x hx => Finset.mem_insert_of_mem (hinv' x hx)
    · exact ih ⟨insert (tidOf t) p, c, lc, tr ++ [t]⟩
        fun x hx => Finset.mem_insert_of_mem (hinv' x hx)
    · split
      · exact hinv'
      · split
        · exact ih ⟨insert (tidOf t) p, c + 1, lc, tr ++ [t]⟩
            fun x hx => Finset.mem_insert_of_mem (hinv' x hx)
        · split
          · exact ih ⟨insert (tidOf t) p, c + 1, lc ++ [tidOf t], tr ++ [t]⟩
              (by
                intro x hx
                rcases List.mem_append.mp hx with hx1 | hx2
                · exact Finset.mem_insert_of_mem (hinv' x hx1)
                · simp only [List.mem_singleton] at hx2
                  subst hx2
                  exact Finset.mem_insert_self _ _)
          · exact ih ⟨insert (tidOf t) p, c, lc ++ [tidOf t], tr ++ [t]⟩
              (by
                intro x hx
                rcases List.mem_append.mp hx with hx1 | hx2
                · exact Finset.mem_insert_of_mem (hinv' x hx1)
                · simp only [List.mem_singleton] at hx2
                  subst hx2
                  exact Finset.mem_insert_self _ _)

/-- An id already in the processed set never receives a live call: every
item with that id is stopped by the already-processed gate. -/
theorem runLoop_processed_no_new_live (cfg : Config) (cutoff : Int) (rtOk : String → Bool)
    (ts : List Tweet) (s : LoopState) (tid : String)
    (hp : tid ∈ s.processed) (hl : tid ∉ s.liveCalls) :
    tid ∉ (runLoop cfg cutoff rtOk ts s).liveCalls := by
  induction ts generalizing s with
  | nil => simpa [runLoop] using hl
  | cons t rest ih =>
    obtain ⟨p, c, lc, tr⟩ := s
    have hp' : tid ∈ p := hp
    have hl' : tid ∉ lc := hl
    simp only [runLoop]
    split
    · exact ih ⟨p, c, lc, tr ++ [t]⟩ hp' hl'
    · exact ih ⟨p, c, lc, tr ++ [t]⟩ hp' hl'
    · exact ih ⟨insert (tidOf t) p, c, lc, tr ++ [t]⟩ (Finset.mem_insert_of_mem hp') hl'
    · exact ih ⟨insert (tidOf t) p, c, lc, tr ++ [t]⟩ (Finset.mem_insert_of_mem hp') hl'
    · exact ih ⟨insert (tidOf t) p, c, lc, tr ++ [t]⟩ (Finset.mem_insert_of_mem hp') hl'
    · exact ih ⟨insert (tidOf t) p, c, lc, tr ++ [t]⟩ (Finset.mem_insert_of_mem hp') hl'
    · next hadm =>
      have hne : tidOf t ≠ tid := by
        intro he
        exact pipeline_admit_not_mem hadm (he ▸ hp')
      split
      · exact hl'
      · split
        · exact ih ⟨insert (tidOf t) p, c + 1, lc, tr ++ [t]⟩
            (Finset.mem_insert_of_mem hp') hl'
        · split
          · exact ih ⟨insert (tidOf t) p, c + 1, lc ++ [tidOf t], tr ++ [t]⟩
              (Finset.mem_insert_of_mem hp')
              (by
                intro hx
                rcases List.mem_append.mp hx with hx1 | hx2
                · exact hl' hx1
                · simp only [List.mem_singleton] at hx2
                  exact hne hx2.symm)
          · exact ih ⟨insert (tidOf t) p, c, lc ++ [tidOf t], tr ++ [t]⟩
              (Finset.mem_insert_of_mem hp')
              (by
                intro hx
                rcases List.mem_append.mp hx with hx1 | hx2
                · exact hl' hx1
                · simp only [List.mem_singleton] at hx2
                  exact hne hx2.symm)

/-- The exposure trace extends the initial trace by some leading segment
of the remaining candidate list (the `break` can cut the list short,
never reorder it). -/
theorem runLoop_trace_decomp (cfg : Config) (cutoff : Int) (rtOk : String → Bool)
    (ts : List Tweet) (s : LoopState) :
    ∃ u v, (runLoop cfg cutoff rtOk ts s).trace = s.trace ++ u ∧ u ++ v = ts := by
  induction ts generalizing s with
  | nil => exact ⟨[], [], by simp [runLoop], rfl⟩
  | cons t rest ih =>
    obtain ⟨p, c, lc, tr⟩ := s
    simp only [runLoop]
    split
    · obtain ⟨u, v, h1, h2⟩ := ih ⟨p, c, lc, tr ++ [t]⟩
      exact ⟨t :: u, v, by simpa using h1, by simpa using h2⟩
    · obtain ⟨u, v, h1, h2⟩ := ih ⟨p, c, lc, tr ++ [t]⟩
      exact ⟨t :: u, v, by simpa using h1, by simpa using h2⟩
    · obtain ⟨u, v, h1, h2⟩ := ih ⟨insert (tidOf t) p, c, lc, tr ++ [t]⟩
      exact ⟨t :: u, v, by simpa using h1, by simpa using h2⟩
    · obtain ⟨u, v, h1, h2⟩ := ih ⟨insert (tidOf t) p, c, lc, tr ++ [t]⟩
      exact ⟨t :: u, v, by simpa using h1, by simpa using h2⟩
    · obtain ⟨u, v, h1, h2⟩ := ih ⟨insert (tidOf t) p, c, lc, tr ++ [t]⟩
      exact ⟨t :: u, v, by simpa using h1, by simpa using h2⟩
    · obtain ⟨u, v, h1, h2⟩ := ih ⟨insert (tidOf t) p, c, lc, tr ++ [t]⟩
      exact ⟨t :: u, v, by simpa using h1, by simpa using h2⟩
    · split
      · exact ⟨[t], rest, rfl, rfl⟩
      · split
        · obtain ⟨u, v, h1, h2⟩ := ih ⟨insert (tidOf t) p, c + 1, lc, tr ++ [t]⟩
          exact ⟨t :: u, v, by simpa using h1, by simpa using h2⟩
        · split
          · obtain ⟨u, v, h1, h2⟩ :=
              ih ⟨insert (tidOf t) p, c + 1, lc ++ [tidOf t], tr ++ [t]⟩
            exact ⟨t :: u, v, by simpa using h1, by simpa using h2⟩
          · obtain ⟨u, v, h1, h2⟩ :=
              ih ⟨insert (tidOf t) p, c, lc ++ [tidOf t], tr ++ [t]⟩
            exact ⟨t :: u, v, by simpa using h1, by simpa using h2⟩

/-- When the cap cannot be reached (more cap than candidates), the loop
exposes the whole candidate list, in order. -/
theorem runLoop_trace_full (cfg : Config) (cutoff : Int) (rtOk : String → Bool)
    (ts : List Tweet) (s : LoopState)
    (h : s.retweetedCount + ts.length ≤ cfg.maxRetweetsPerRun) :
    (runLoop cfg cutoff rtOk ts s).trace = s.trace ++ ts := by
  induction ts generalizing s with
  | nil => simp [runLoop]
  | cons t rest ih =>
    obtain ⟨p, c, lc, tr⟩ := s
    have h' : c + (rest.length + 1) ≤ cfg.maxRetweetsPerRun := h
    simp only [runLoop]
    split
    · have := ih ⟨p, c, lc, tr ++ [t]⟩ (by show c + rest.length ≤ _; omega)
      simpa using this
    · have := ih ⟨p, c, lc, tr ++ [t]⟩ (by show c + rest.length ≤ _; omega)
      simpa using this
    · have := ih ⟨insert (tidOf t) p, c, lc, tr ++ [t]⟩ (by show c + rest.length ≤ _; omega)
      simpa using this
    · have := ih ⟨insert (tidOf t) p, c, lc, tr ++ [t]⟩ (by show c + rest.length ≤ _; omega)
      simpa using this
    · have := ih ⟨insert (tidOf t) p, c, lc, tr ++ [t]⟩ (by show c + rest.length ≤ _; omega)
      simpa using this
    · have := ih ⟨insert (tidOf t) p, c, lc, tr ++ [t]⟩ (by show c + rest.length ≤ _; omega)
      simpa using this
    · split
      · next hcap =>
        have hcap' : cfg.maxRetweetsPerRun ≤ c := hcap
        omega
      · split
        · have := ih ⟨insert (tidOf t) p, c + 1, lc, tr ++ [t]⟩
            (by show c + 1 + rest.length ≤ _; omega)
          simpa using this
        · split
          · have := ih ⟨insert (tidOf t) p, c + 1, lc ++ [tidOf t], tr ++ [t]⟩
              (by show c + 1 + rest.length ≤ _; omega)
            simpa using this
          · have := ih ⟨insert (tidOf t) p, c, lc ++ [tidOf t], tr ++ [t]⟩
              (by show c + rest.length ≤ _; omega)
            simpa using this

/-- The dry-run loop equals the live loop under an all-successful action
oracle, except that it makes no live calls: both arms perform the same
`processed.add(tid)`/`retweeted_count += 1` bookkeeping. -/
theorem runLoop_dry_eq_live (cfg1 cfg2 : Config) (cutoff : Int) (rtOk : String → Bool)
    (hkw : cfg1.kwMatch = cfg2.kwMatch)
    (hcap : cfg1.maxRetweetsPerRun = cfg2.maxRetweetsPerRun)
    (hd1 : cfg1.dryRun = true) (hd2 : cfg2.dryRun = false)
    (ts : List Tweet) (p : Finset String) (c : Nat) (lc lc' : List String)
    (tr : List Tweet) :
    runLoop cfg1 cutoff rtOk ts ⟨p, c, lc, tr⟩ =
      ⟨(runLoop cfg2 cutoff (fun _ => true) ts ⟨p, c, lc', tr⟩).processed,
       (runLoop cfg2 cutoff (fun _ => true) ts ⟨p, c, lc', tr⟩).retweetedCount,
       lc,
       (runLoop cfg2 cutoff (fun _ => true) ts ⟨p, c, lc', tr⟩).trace⟩ := by
  induction ts generalizing p c lc lc' tr with
  | nil => simp [runLoop]
  | cons t rest ih =>
    simp only [runLoop, hkw, hcap, hd1, hd2]
    rcases hv : pipeline cfg2.kwMatch p cutoff t with _ | _ | _ | _ | _ | _ | _
    all_goals simp only [hv]
    · exact ih p c lc lc' (tr ++ [t])
    · exact ih p c lc lc' (tr ++ [t])
    · exact ih (insert (tidOf t) p) c lc lc' (tr ++ [t])
    · exact ih (insert (tidOf t) p) c lc lc' (tr ++ [t])
    · exact ih (insert (tidOf t) p) c lc lc' (tr ++ [t])
    · exact ih (insert (tidOf t) p) c lc lc' (tr ++ [t])
    · by_cases hc : cfg2.maxRetweetsPerRun ≤ c
      · simp only [if_pos hc]
      · simp only [if_neg hc, if_pos rfl]
        exact ih (insert (tidOf t) p) (c + 1) lc (lc' ++ [tidOf t]) (tr ++ [t])


/-!
Claim theorems.
-/

/-- Claim C1 (code_bug evaluation): the spec's self-authorship gate does
not exist in the code.  `run_once` computes `my_user_id` (bot.py line
150) but no gate ever compares an item's `author_id` with it — no
`skipped_own_author` outcome occurs anywhere in the loop.  Evaluating the
run on a timeline containing a recent, original, keyword-matching tweet
whose `author_id` equals the authenticated caller's id (`"42"`, whose
stringification is exactly `my_user_id`) shows the tweet is admitted and
retweeted live (`liveCalls = ["901"]`) and recorded as acted, instead of
being rejected between the already-processed gate and the recency gate as
the claim states. -/
theorem claim_C1_no_self_authorship_gate :
    tSelf.authorId = some "42" ∧ pyStr (some "42") = "42" ∧
    run_once_body ⟨1, false, 1, kw0⟩ (some "42") ∅ 1000 (.ok [tSelf]) (fun _ => true) =
      ⟨[tSelf], ["901"], 1, {"901"}, some {"901"}⟩ := by decide

/-- Claim C2, counterexample: when the fetch call raises, `run_once`
catches the exception (bot.py lines 161-163), logs it and returns
normally, so the modelled outcome is `.ok` — a normal return that makes
the interpreter exit 0, i.e. a success indication — refuting the claim's
"finishes with a failure indication".  The ledger parts hold: no trace,
no live call, processed set untouched and `saved = none` (the
`save_state` at lines 222-223 is never reached). -/
theorem claim_C2_counterexample :
    run_once ⟨1, false, 3, kw0⟩ true (.ok (some "42")) ∅ 0 (.error "ConnectionError")
      (fun _ => true) = .ok ⟨[], [], 0, ∅, none⟩ := rfl

/-- Claim C2, amended: for every run whose candidate fetch raises, the
run aborts before the loop — nothing is traced, no live call is made, the
in-memory ledger is unchanged and the durable store is not rewritten
(`saved = none`) — but `run_once` returns normally (`.ok`), so the
process finishes with a success indication; only the log records the
failure. -/
theorem claim_C2_amended_fetch_failure : ∀ (cfg : Config) (meId : Option String)
    (init : Finset String) (now : Int) (e : String) (rt : String → Bool),
    run_once cfg true (.ok meId) init now (.error e) rt =
      .ok ⟨[], [], 0, init, none⟩ := by
  intro cfg meId init now e rt
  rfl

/-- Claim C3, counterexample: cap 1, live mode, provider order
`[tC, tB, tA]` (so the loop sees `A`, `B`, `C`), the retweet call failing
for `A` and succeeding for `B`.  The code invokes `client.retweet` twice
(`liveCalls = ["A", "B"]`), exceeding the cap of 1, because a failed
invocation does not increment `retweeted_count`; and after the counter
reached the cap at `B`, iteration did not stop immediately: the too-old
item `C` was still evaluated and recorded in the ledger. -/
theorem claim_C3_counterexample :
    (run_once_body ⟨1, false, 1, kw0⟩ (some "42") ∅ 4600 (.ok [tC, tB, tA])
      (fun tid => tid == "B")).liveCalls = ["A", "B"] ∧
    (run_once_body ⟨1, false, 1, kw0⟩ (some "42") ∅ 4600 (.ok [tC, tB, tA])
      (fun tid => tid == "B")).retweetedCount = 1 ∧
    "C" ∈ (run_once_body ⟨1, false, 1, kw0⟩ (some "42") ∅ 4600 (.ok [tC, tB, tA])
      (fun tid => tid == "B")).processed := by decide

/-- Claim C3, amended: for every run, the run-scoped counter of
successful actions never exceeds the configured cap, and with cap = 0
there are zero live invocations (the `break` at bot.py line 203 fires
before any action).  Failed invocations do not count toward the cap, so
the number of live invocations can exceed it, and after the counter
reaches the cap the loop keeps evaluating (and recording) rejected items
until the next admitted item. -/
theorem claim_C3_amended_cap : ∀ (cfg : Config) (meId : Option String)
    (init : Finset String) (now : Int) (fetch : Except String (List Tweet))
    (rt : String → Bool),
    (run_once_body cfg meId init now fetch rt).retweetedCount ≤ cfg.maxRetweetsPerRun ∧
    (cfg.maxRetweetsPerRun = 0 →
      (run_once_body cfg meId init now fetch rt).liveCalls = []) := by
  intro cfg meId init now fetch rt
  cases fetch with
  | error e => exact ⟨Nat.zero_le _, fun _ => rfl⟩
  | ok data =>
    constructor
    · simp only [run_once_body]
      exact runLoop_count_le cfg _ rt data.reverse ⟨init, 0, [], []⟩ (Nat.zero_le _)
    · intro hcap
      simp only [run_once_body]
      exact runLoop_capped_live cfg _ rt data.reverse ⟨init, 0, [], []⟩ (by simp [hcap])

/-- Witness for `claim_C3_amended_cap` at cap 0: a run over one admitted
candidate in live mode makes no live call. -/
theorem claim_C3_witness :
    (run_once_body ⟨0, false, 1, kw0⟩ (some "42") ∅ 4600 (.ok [tA])
      (fun _ => true)).liveCalls = [] :=
  (claim_C3_amended_cap ⟨0, false, 1, kw0⟩ (some "42") ∅ 4600 (.ok [tA])
    (fun _ => true)).2 rfl

/-- Claim C4 (confirmed): with dry-run enabled, the run equals the live
run under an all-successful action oracle in trace, counter, processed
set and saved snapshot, and makes zero live calls — the dry arm (bot.py
lines 207-210) performs exactly the bookkeeping of the successful live
arm (lines 213-216) without invoking `client.retweet`. -/
theorem claim_C4_dry_run_equivalence : ∀ (cap : Nat) (lb : Int) (kw : String → Bool)
    (meId : Option String) (init : Finset String) (now : Int)
    (fetch : Except String (List Tweet)) (rt : String → Bool),
    run_once_body ⟨cap, true, lb, kw⟩ meId init now fetch rt =
      ⟨(run_once_body ⟨cap, false, lb, kw⟩ meId init now fetch (fun _ => true)).trace,
       [],
       (run_once_body ⟨cap, false, lb, kw⟩ meId init now fetch (fun _ => true)).retweetedCount,
       (run_once_body ⟨cap, false, lb, kw⟩ meId init now fetch (fun _ => true)).processed,
       (run_once_body ⟨cap, false, lb, kw⟩ meId init now fetch (fun _ => true)).saved⟩ := by
  intro cap lb kw meId init now fetch rt
  cases fetch with
  | error e => rfl
  | ok data =>
    have h := runLoop_dry_eq_live ⟨cap, true, lb, kw⟩ ⟨cap, false, lb, kw⟩
      (now - 3600 * lb) rt rfl rfl rfl rfl data.reverse init 0 [] [] []
    simp only [run_once_body]
    rw [h]

/-- Claim C5 (confirmed): for an item that reaches the recency gate (its
id is truthy and not yet processed), the item is rejected by the recency
checks exactly when `created_at` is absent or strictly older than the
cutoff `now - lookback`; in that case the loop records its id as
processed and continues; and an item whose `created_at` equals the cutoff
exactly passes both recency checks (inclusive boundary, since the code
tests `created_at < cutoff`). -/
theorem claim_C5_recency_gate (cfg : Config) (rt : String → Bool) (cutoff : Int)
    (t : Tweet) (rest : List Tweet) (s : LoopState)
    (h1 : tidOf t ≠ "") (h2 : tidOf t ∉ s.processed) :
    ((pipeline cfg.kwMatch s.processed cutoff t = .skipNoDate ∨
      pipeline cfg.kwMatch s.processed cutoff t = .skipTooOld) ↔
      (get_created_at t = none ∨ ∃ ca, get_created_at t = some ca ∧ ca < cutoff))
    ∧ ((get_created_at t = none ∨ ∃ ca, get_created_at t = some ca ∧ ca < cutoff) →
        runLoop cfg cutoff rt (t :: rest) s =
          runLoop cfg cutoff rt rest
            { s with trace := s.trace ++ [t],
                     processed := insert (tidOf t) s.processed })
    ∧ (get_created_at t = some cutoff →
        pipeline cfg.kwMatch s.processed cutoff t ≠ .skipNoDate ∧
        pipeline cfg.kwMatch s.processed cutoff t ≠ .skipTooOld) := by
  have hb : (tidOf t == "") = false := beq_eq_false_iff_ne.mpr h1
  have hiff : (pipeline cfg.kwMatch s.processed cutoff t = .skipNoDate ∨
      pipeline cfg.kwMatch s.processed cutoff t = .skipTooOld) ↔
      (get_created_at t = none ∨ ∃ ca, get_created_at t = some ca ∧ ca < cutoff) := by
    unfold pipeline
    simp only [hb, Bool.false_eq_true, if_false, if_neg h2]
    rcases hca : get_created_at t with _ | ca
    · simp
    · simp only [hca]
      by_cases hlt : ca < cutoff
      · simp [hlt]
      · simp only [if_neg hlt]
        constructor
        · intro h
          rcases h with h | h <;> (split at h <;> try split at h) <;> simp_all
        · intro h
          rcases h with h | ⟨ca', hca', hlt'⟩
          · exact absurd h (by simp)
          · rw [Option.some.injEq] at hca'
            exact absurd (hca' ▸ hlt') hlt
  refine ⟨hiff, ?_, ?_⟩
  · intro h
    have hv := hiff.mpr h
    obtain ⟨p, c, lc, tr⟩ := s
    rcases hv with hv | hv <;> simp only [runLoop, hv]
  · intro hca
    constructor <;> intro hcontra
    · have := hiff.mp (Or.inl hcontra)
      rcases this with h | ⟨ca, hca', hlt⟩
      · rw [hca] at h; exact Option.noConfusion h
      · rw [hca, Option.some.injEq] at hca'
        omega
    · have := hiff.mp (Or.inr hcontra)
      rcases this with h | ⟨ca, hca', hlt⟩
      · rw [hca] at h; exact Option.noConfusion h
      · rw [hca, Option.some.injEq] at hca'
        omega

/-- Witness for `claim_C5_recency_gate`: a fresh tweet without a creation
date is rejected by the recency checks. -/
theorem claim_C5_witness :
    pipeline kw0 ∅ 50 tNoDate = Verdict.skipNoDate ∨
    pipeline kw0 ∅ 50 tNoDate = Verdict.skipTooOld :=
  (claim_C5_recency_gate ⟨1, false, 1, kw0⟩ (fun _ => true) 50 tNoDate [] ⟨∅, 0, [], []⟩
    (by decide) (by decide)).1.mpr (Or.inl rfl)

/-- Claim C6 (confirmed): the loop iterates over
`list(reversed(tweets))` (bot.py line 168), so the candidates exposed to
the filter gates are a leading segment of the reverse of the provider's
returned order, and when the cap cannot cut the loop short (at least as
much cap as candidates) the exposed sequence is exactly the reverse —
items are evaluated and acted on oldest-first. -/
theorem claim_C6_oldest_first : ∀ (cfg : Config) (meId : Option String)
    (init : Finset String) (now : Int) (data : List Tweet) (rt : String → Bool),
    (∃ u, (run_once_body cfg meId init now (.ok data) rt).trace ++ u = data.reverse) ∧
    (data.length ≤ cfg.maxRetweetsPerRun →
      (run_once_body cfg meId init now (.ok data) rt).trace = data.reverse) := by
  intro cfg meId init now data rt
  constructor
  · simp only [run_once_body]
    obtain ⟨u, v, h1, h2⟩ :=
      runLoop_trace_decomp cfg (now - 3600 * cfg.lookbackHours) rt data.reverse
        ⟨init, 0, [], []⟩
    refine ⟨v, ?_⟩
    have h1' : (runLoop cfg (now - 3600 * cfg.lookbackHours) rt data.reverse
        ⟨init, 0, [], []⟩).trace = u := by simpa using h1
    rw [h1', h2]
  · intro hlen
    simp only [run_once_body]
    have := runLoop_trace_full cfg (now - 3600 * cfg.lookbackHours) rt data.reverse
      ⟨init, 0, [], []⟩ (by simpa using hlen)
    simpa using this

/-- Witness for `claim_C6_oldest_first`: a one-element timeline under cap
1 is exposed exactly in reverse provider order. -/
theorem claim_C6_witness :
    (run_once_body ⟨1, false, 1, kw0⟩ (some "42") ∅ 4600 (.ok [tA])
      (fun _ => true)).trace = [tA].reverse :=
  (claim_C6_oldest_first ⟨1, false, 1, kw0⟩ (some "42") ∅ 4600 [tA]
    (fun _ => true)).2 (by decide)

/-- Claim C7 (confirmed): `load_state` returns the empty ledger
`{"processed_ids": []}` — never raising — when the store file is missing,
unreadable or corrupt, and `state.get("processed_ids", [])` on that empty
ledger succeeds with the empty id collection, so the run proceeds with an
empty processed set instead of aborting. -/
theorem claim_C7_store_failure_empty_ledger :
    load_state .missing = emptyState ∧
    load_state .unreadable = emptyState ∧
    load_state .corrupt = emptyState ∧
    stateGet emptyState "processed_ids" (.arr []) = .ok (.arr []) :=
  ⟨rfl, rfl, rfl, rfl⟩

/-- Claim C8 (confirmed): in live mode, when an admitted item's retweet
call raises while the counter is below the cap, the exception is caught
(bot.py lines 217-220): the loop state gains only the failed item's id
(recorded as processed) and its live-call entry, the counter is
unchanged, and the loop continues with the remaining candidates from that
state — one item's action failure never aborts the batch, and later
admitted items under the cap are still acted upon exactly as if processed
from the updated state. -/
theorem claim_C8_action_failure_continues (cfg : Config) (cutoff : Int)
    (rt : String → Bool) (t : Tweet) (rest : List Tweet) (s : LoopState)
    (hdry : cfg.dryRun = false)
    (hadm : pipeline cfg.kwMatch s.processed cutoff t = .admitItem)
    (hcap : s.retweetedCount < cfg.maxRetweetsPerRun)
    (hfail : rt (tidOf t) = false) :
    runLoop cfg cutoff rt (t :: rest) s =
      runLoop cfg cutoff rt rest
        { s with trace := s.trace ++ [t],
                 processed := insert (tidOf t) s.processed,
                 liveCalls := s.liveCalls ++ [tidOf t] } := by
  obtain ⟨p, c, lc, tr⟩ := s
  have hcap' : ¬ (cfg.maxRetweetsPerRun ≤ c) := by
    have : c < cfg.maxRetweetsPerRun := hcap
    omega
  simp only [runLoop, hadm, hdry, hfail, if_neg hcap', Bool.false_eq_true, if_false]

/-- Witness for `claim_C8_action_failure_continues`: with cap 2 and the
retweet call failing, the loop on `[tA, tB]` continues past the failed
`A` into the remaining batch. -/
theorem claim_C8_witness :
    runLoop ⟨2, false, 1, kw0⟩ 0 (fun _ => false) [tA, tB] ⟨∅, 0, [], []⟩ =
      runLoop ⟨2, false, 1, kw0⟩ 0 (fun _ => false) [tB]
        ⟨insert (tidOf tA) ∅, 0, [tidOf tA], [tA]⟩ :=
  claim_C8_action_failure_continues ⟨2, false, 1, kw0⟩ 0 (fun _ => false) tA [tB]
    ⟨∅, 0, [], []⟩ rfl (by decide) (by decide) rfl

/-- Claim C9 (confirmed): every id for which a live retweet call was made
— including failed calls, whose exception arm also executes
`processed.add(tid)` — ends the run in the processed set, which is
exactly the snapshot persisted by `save_state`; and any run starting from
a ledger containing that id never makes a live call for it again (the
already-processed gate rejects it), so a failed action is never retried:
the implementation resolves the spec's open question toward "record
anyway". -/
theorem claim_C9_failed_action_recorded (cfg cfg2 : Config) (meId meId2 : Option String)
    (init init2 : Finset String) (now now2 : Int)
    (fetch fetch2 : Except String (List Tweet)) (rt rt2 : String → Bool)
    (tid : String)
    (h : tid ∈ (run_once_body cfg meId init now fetch rt).liveCalls)
    (h2 : tid ∈ init2) :
    tid ∈ (run_once_body cfg meId init now fetch rt).processed ∧
    (run_once_body cfg meId init now fetch rt).saved =
      some (run_once_body cfg meId init now fetch rt).processed ∧
    tid ∉ (run_once_body cfg2 meId2 init2 now2 fetch2 rt2).liveCalls := by
  refine ⟨?_, ?_, ?_⟩
  · cases fetch with
    | error e => simp [run_once_body] at h
    | ok data =>
      simp only [run_once_body] at h ⊢
      exact runLoop_live_mem_processed cfg _ rt data.reverse ⟨init, 0, [], []⟩
        (by intro x hx; simp at hx) tid h
  · cases fetch with
    | error e => simp [run_once_body] at h
    | ok data => simp [run_once_body]
  · cases fetch2 with
    | error e => simp [run_once_body]
    | ok data2 =>
      simp only [run_once_body]
      exact runLoop_processed_no_new_live cfg2 _ rt2 data2.reverse ⟨init2, 0, [], []⟩
        tid h2 (by simp)

/-- Witness for `claim_C9_failed_action_recorded`: the retweet of `A`
fails, yet `A` is processed and saved, and a second run whose loaded
ledger contains `A` makes no live call for it. -/
theorem claim_C9_witness :
    "A" ∈ (run_once_body ⟨1, false, 1, kw0⟩ (some "42") ∅ 4600 (.ok [tA])
      (fun _ => false)).processed ∧
    (run_once_body ⟨1, false, 1, kw0⟩ (some "42") ∅ 4600 (.ok [tA])
      (fun _ => false)).saved =
      some (run_once_body ⟨1, false, 1, kw0⟩ (some "42") ∅ 4600 (.ok [tA])
        (fun _ => false)).processed ∧
    "A" ∉ (run_once_body ⟨1, false, 1, kw0⟩ (some "42") {"A"} 4600 (.ok [tA])
      (fun _ => true)).liveCalls :=
  claim_C9_failed_action_recorded ⟨1, false, 1, kw0⟩ ⟨1, false, 1, kw0⟩
    (some "42") (some "42") ∅ {"A"} 4600 4600 (.ok [tA]) (.ok [tA])
    (fun _ => false) (fun _ => true) "A" (by decide) (by decide)

/-- Claim C10, counterexample: a tweet without an `id` attribute whose
raw data dictionary maps `id` to the empty string makes
`str(None or "")` evaluate to `""`, a falsy identifier — so the computed
identifier is empty and the `if not tid: continue` guard does fire,
refuting both "the computed identifier string is non-empty for every
fetched tweet" and "the guard is unreachable". -/
theorem claim_C10_counterexample :
    tidOf tEmptyId = "" ∧ pipeline kw0 ∅ 0 tEmptyId = .skipNoTid := by decide

/-- Claim C10, amended: for every tweet carrying no id — attribute absent
or falsy and no `id` key in the data dictionary — the computed identifier
is the literal string `"None"`, which is non-empty, so the falsy-id guard
does not fire on such tweets and, once `"None"` has been recorded, every
further id-less tweet is rejected as a duplicate: all id-less tweets are
deduplicated under the single shared key `"None"`.  (The guard itself is
reachable, but only through an empty-string id in the data dictionary,
per the counterexample.) -/
theorem claim_C10_amended_idless : ∀ (t : Tweet) (kw : String → Bool)
    (p : Finset String) (cutoff : Int),
    (t.attrId = none ∨ t.attrId = some "") → t.dataId = none →
    (tidOf t = "None" ∧ tidOf t ≠ "" ∧ (tidOf t == "") = false ∧
     ("None" ∈ p → pipeline kw p cutoff t = .skipDuplicate)) := by
  intro t kw p cutoff hattr hdata
  have htid : tidOf t = "None" := by
    unfold tidOf pyOr pyStr pyTruthy
    rcases hattr with h | h <;> simp [h, hdata]
  refine ⟨htid, by simp [htid], by simp [htid], ?_⟩
  intro hmem
  unfold pipeline
  simp [htid, hmem]

/-- Witness for `claim_C10_amended_idless`: an id-less tweet is rejected
as a duplicate once `"None"` is in the ledger. -/
theorem claim_C10_witness :
    pipeline kw0 {"None"} 0 tNoId = Verdict.skipDuplicate :=
  (claim_C10_amended_idless tNoId kw0 {"None"} 0 (Or.inl rfl) rfl).2.2.2 (by decide)

end TwitterBot
